import Mathlib

/-!
Verification of the symbol-stripping pipeline in `strip.py`.

The program is a linear pipeline: resolve tools, list global defined
symbols with `nm -gjPUA`, filter them against a caller-supplied regular
expression (`re.match`, i.e. anchored at the start), write a sidecar
`.symbols` file, unpack the archive with `ar` in a temporary directory,
relink with `ld -r -exported_symbols_list`, and repack with `libtool`.

The embedding below translates the pure parts (line parsing, pattern
filtering, symbol-set construction, sidecar serialization) directly from
the source, and models the effectful pipeline (`__main__`) as a function
from an environment (command-line arguments, search-path lookups and
external-tool outcomes) and a file-system state to a result and a final
file-system state.
-/

/-! ## Regular expressions

Model of the Python `re` patterns used by the script.  `re.match`
succeeds when some prefix of the input starting at position 0 is in the
pattern's language; matching is implemented with Brzozowski derivatives.
The dot matches any character except a newline, as in Python's default
mode. -/

inductive Regex where
  | fail : Regex
  | eps : Regex
  | lit : Char → Regex
  | dot : Regex
  | cat : Regex → Regex → Regex
  | alt : Regex → Regex → Regex
  | star : Regex → Regex
deriving DecidableEq

def Regex.nullable : Regex → Bool
  | .fail => false
  | .eps => true
  | .lit _ => false
  | .dot => false
  | .cat r₁ r₂ => r₁.nullable && r₂.nullable
  | .alt r₁ r₂ => r₁.nullable || r₂.nullable
  | .star _ => true

def Regex.deriv : Regex → Char → Regex
  | .fail, _ => .fail
  | .eps, _ => .fail
  | .lit c, a => if a = c then .eps else .fail
  | .dot, a => if a = '\n' then .fail else .eps
  | .cat r₁ r₂, a =>
      if r₁.nullable then .alt (.cat (r₁.deriv a) r₂) (r₂.deriv a)
      else .cat (r₁.deriv a) r₂
  | .alt r₁ r₂, a => .alt (r₁.deriv a) (r₂.deriv a)
  | .star r, a => .cat (r.deriv a) (.star r)

/-- Does some prefix of the character list belong to the language of the
regex?  This is the acceptance condition of Python's `re.match`. -/
def reMatchList : Regex → List Char → Bool
  | r, [] => r.nullable
  | r, c :: cs => r.nullable || reMatchList (r.deriv c) cs

/-- Model of `symbol_pattern.match(symbol)` being truthy: the pattern
matches at the start of the string. -/
def matchesAtStart (r : Regex) (s : String) : Bool :=
  reMatchList r s.data

/-- Regex matching a literal string (concatenation of its characters),
used to build concrete patterns. -/
def stringRe (s : String) : Regex :=
  s.data.foldr (fun c r => Regex.cat (.lit c) r) .eps

/-! ## Line splitting

`str.split(' ')` and `str.splitlines()` are reimplemented on character
lists so that they compute by structural recursion. -/

/-- Model of Python `line.split(' ')` on character lists: split at every
single space, keeping empty fields. -/
def splitFields : List Char → List (List Char)
  | [] => [[]]
  | c :: cs =>
      if c = ' ' then [] :: splitFields cs
      else
        match splitFields cs with
        | [] => [[c]]
        | f :: fs => (c :: f) :: fs

/-- Model of Python `line.split(' ')`: the list of fields of a line. -/
def lineFields (line : String) : List String :=
  (splitFields line.data).map String.mk

/-- Model of Python `str.splitlines()` on character lists: split at each
newline and drop the trailing entry produced by a final newline. -/
def splitLinesList : List Char → List (List Char)
  | [] => []
  | c :: cs =>
      if c = '\n' then [] :: splitLinesList cs
      else
        match splitLinesList cs with
        | [] => [[c]]
        | l :: ls => (c :: l) :: ls

/-- Model of Python `str.splitlines()`. -/
def splitLines (s : String) : List String :=
  (splitLinesList s.data).map String.mk

/-! ## Parsing one line of the `nm -gjPUA` listing

The script splits each line at spaces; field 0 must match the regex
`^.+\[(.+)\]:$` (via `re.match`, with the captured group being the
object-file name), and field 1 is the symbol name.  A first field that
does not match makes `file_pattern.match(data[0])[1]` subscript `None`,
a `TypeError`; a missing second field is an `IndexError`. -/

/-- Errors raised by the script, indexed by the Python exception that
carries them. -/
inductive PErr where
  | runtimeError : String → PErr
  | calledProcessError : PErr
  | typeError : PErr
  | indexError : PErr
deriving DecidableEq

/-- Scan the reversed interior of a candidate first field for the `[`
the regex `^.+\[(.+)\]:$` commits to.  The input is the reverse of the
field with the trailing `]:` removed; scanning it front-to-back visits
bracket positions right-to-left, exactly the order a greedy `.+` tries
them.  A bracket is accepted when the captured group (`acc`, rebuilt in
source order) and the leading `.+` (the remainder) are both nonempty. -/
def findBracket : List Char → List Char → Option (List Char × List Char)
  | _, [] => none
  | acc, c :: cs =>
      if c = '[' ∧ acc ≠ [] ∧ cs ≠ [] then some (acc, cs)
      else findBracket (c :: acc) cs

/-- Model of `file_pattern.match(field)` for
`file_pattern = re.compile(r'^.+\[(.+)\]:$')`, returning the captured
object-file name.  Fields handed to it by the script come from
space-splitting `splitlines` output and therefore never contain a
newline, so the dot-excludes-newline rule never bites. -/
def parseObjectName (field : String) : Option String :=
  match field.data.reverse with
  | ':' :: ']' :: rest =>
      match findBracket [] rest with
      | some (b, _) => some (String.mk b)
      | none => none
  | _ => none

/-- First field of a listing line (`data[0]`). -/
def firstField (line : String) : String :=
  (lineFields line).headD ""

/-- Second field of a listing line (`data[1]`), when present. -/
def secondField (line : String) : Option String :=
  (lineFields line)[1]?

/-- Parse one listing line into (object-file name, symbol name), as the
loop body does: `data = line.split(' ')`,
`object_file = file_pattern.match(data[0])[1]`, `symbol = data[1]`. -/
def parseLine (line : String) : Except PErr (String × String) :=
  match parseObjectName (firstField line) with
  | none => .error .typeError
  | some obj =>
      match secondField line with
      | none => .error .indexError
      | some sym => .ok (obj, sym)

/-- A line is well formed when its first field matches the bracketed
object structure and it has a second field. -/
def wellFormed (line : String) : Bool :=
  (parseObjectName (firstField line)).isSome && (secondField line).isSome

/-- The symbol name a line contributes, when the line parses. -/
def symbolOf (line : String) : Option String :=
  match parseLine line with
  | .ok p => some p.2
  | .error _ => none

/-! ## Building the preserve-set

`symbols_to_keep` is a Python `set`; it is modelled as a duplicate-free
list in insertion order, so that both set membership and the iteration
order determined by the insertion sequence are captured. -/

/-- Model of `symbols_to_keep.add(symbol)`. -/
def setAdd (acc : List String) (s : String) : List String :=
  if s ∈ acc then acc else acc ++ [s]

/-- The filtering loop over the listing lines: parse each line, test the
symbol with `symbol_pattern.match`, and add matching symbols to the
set.  A line that fails to parse aborts with the corresponding error. -/
def processLines (pat : Regex) : List String → List String → Except PErr (List String)
  | acc, [] => .ok acc
  | acc, line :: rest =>
      match parseLine line with
      | .error e => .error e
      | .ok p =>
          processLines pat (if matchesAtStart pat p.2 then setAdd acc p.2 else acc) rest

/-! ## Sidecar preserve-list file

`module = source.with_suffix('.symbols')`; the file gets one comment
header line, then one symbol per line. -/

/-- Minimal model of a `pathlib.Path`: the part of the path before the
extension, and the extension itself.  `with_suffix` swaps the
extension. -/
structure PyPath where
  stem : String
  ext : String
deriving DecidableEq

/-- Model of `pathlib.Path.with_suffix`. -/
def withSuffix (p : PyPath) (newExt : String) : PyPath :=
  ⟨p.stem, newExt⟩

/-- The sidecar path `source.with_suffix('.symbols')`. -/
def sidecarPath (source : PyPath) : PyPath :=
  withSuffix source ".symbols"

/-- The comment header written first. -/
def sidecarHeader : String := "# Stripped by Cerbero"

/-- Content of the sidecar file: the concatenation of the writes
`f.write('# Stripped by Cerbero\n')` and, for each preserved symbol,
`f.write(symbol + '\n')`. -/
def sidecarText (syms : List String) : String :=
  String.mk (((sidecarHeader :: syms).map (fun s => s.data ++ ['\n'])).flatten)

/-- Parse a sidecar file back: split into lines and drop the header. -/
def parseSidecar (text : String) : List String :=
  (splitLines text).drop 1

/-! ## Tool resolution -/

/-- Model of `get_nm`: the `--nm` override is returned as given; without
it, `shutil.which('nm')` must succeed or a `RuntimeError` is raised. -/
def get_nm (nmArg : Option String) (whichNm : Option String) : Except PErr String :=
  match nmArg with
  | none =>
      match whichNm with
      | none => .error (.runtimeError "A valid llvm-nm executable is needed")
      | some alt => .ok alt
  | some exe => .ok exe

/-- Model of `get_exe`: look the name up on the search path, raising a
`RuntimeError` when nothing is found. -/
def get_exe (name : String) (which : Option String) : Except PErr String :=
  match which with
  | none => .error (.runtimeError ("A valid " ++ name ++ " executable is needed"))
  | some exe => .ok exe

/-! ## The pipeline

`__main__` is modelled as a function of an environment (the parsed
command line, the search-path lookups, and the outcomes of the external
tool invocations) and a file-system state. -/

/-- The environment of one run: parsed arguments, what the search path
offers, and how each external tool invocation would go.  The `--pattern`
argument is carried as an already-structured regex (`none` models the
option being omitted, in which case `re.compile(None)` raises a
`TypeError`). -/
structure Env where
  source : PyPath
  nmArg : Option String
  pattern : Option Regex
  whichNm : Option String
  whichLd : Option String
  whichAr : Option String
  whichLibtool : Option String
  nmResult : Except Unit String
  arOk : Bool
  ldOk : Bool
  libtoolOk : Bool

/-- The file-system facts the claims are about: whether the scratch
directory currently exists, whether it ever existed (a history flag,
never cleared), the sidecar file (path and text) if written, and the
content of the destination archive, abstracted as the list of exported
symbols it was built from. -/
structure FS where
  scratchExists : Bool
  scratchCreated : Bool
  sidecar : Option (PyPath × String)
  dest : Option (List String)
deriving DecidableEq

/-- The body of the `with tempfile.TemporaryDirectory()` block: build
the preserve-set, write the sidecar file, then unpack (`get_exe('ar')`,
`ar xv`), relink (`get_exe('ld')`, `ld -r -exported_symbols_list`) and
repack (`get_exe('libtool')`, `libtool -static -o dest`).  Only a
successful repack writes the destination. -/
def scratchBody (env : Env) (pat : Regex) (out : String) (fs : FS) :
    Except PErr Unit × FS :=
  match processLines pat [] (splitLines out) with
  | .error e => (.error e, fs)
  | .ok syms =>
      let fs₁ : FS := { fs with sidecar := some (sidecarPath env.source, sidecarText syms) }
      match get_exe "ar" env.whichAr with
      | .error e => (.error e, fs₁)
      | .ok _ =>
          if env.arOk then
            match get_exe "ld" env.whichLd with
            | .error e => (.error e, fs₁)
            | .ok _ =>
                if env.ldOk then
                  match get_exe "libtool" env.whichLibtool with
                  | .error e => (.error e, fs₁)
                  | .ok _ =>
                      if env.libtoolOk then (.ok (), { fs₁ with dest := some syms })
                      else (.error .calledProcessError, fs₁)
                else (.error .calledProcessError, fs₁)
          else (.error .calledProcessError, fs₁)

/-- Model of `__main__`: resolve `nm` and `ld`, run `nm -gjPUA` on the
source, compile the symbol pattern, then enter the temporary-directory
block; the directory is removed when the block exits, normally or with
an error. -/
def runMain (env : Env) (fs₀ : FS) : Except PErr Unit × FS :=
  match get_nm env.nmArg env.whichNm with
  | .error e => (.error e, fs₀)
  | .ok _ =>
      match get_exe "ld" env.whichLd with
      | .error e => (.error e, fs₀)
      | .ok _ =>
          match env.nmResult with
          | .error _ => (.error .calledProcessError, fs₀)
          | .ok out =>
              match env.pattern with
              | none => (.error .typeError, fs₀)
              | some pat =>
                  let fs₁ : FS := { fs₀ with scratchExists := true, scratchCreated := true }
                  let res := scratchBody env pat out fs₁
                  (res.1, { res.2 with scratchExists := false })

theorem setAdd_mem (acc : List String) (x s : String) :
    s ∈ setAdd acc x ↔ s ∈ acc ∨ s = x := by
  unfold setAdd
  by_cases h : x ∈ acc
  · simp only [if_pos h]
    constructor
    · exact Or.inl
    · rintro (hs | rfl)
      · exact hs
      · exact h
  · simp [if_neg h]

theorem parseLine_of_wellFormed (l : String) (h : wellFormed l = true) :
    ∃ obj sym, parseLine l = Except.ok (obj, sym) ∧ secondField l = some sym := by
  unfold wellFormed at h
  rw [Bool.and_eq_true] at h
  obtain ⟨h₁, h₂⟩ := h
  obtain ⟨obj, hobj⟩ := Option.isSome_iff_exists.mp h₁
  obtain ⟨sym, hsym⟩ := Option.isSome_iff_exists.mp h₂
  exact ⟨obj, sym, by simp [parseLine, hobj, hsym], hsym⟩

theorem processLines_mem (pat : Regex) (lines : List String) :
    ∀ acc : List String, (∀ l ∈ lines, wellFormed l = true) →
      ∃ syms, processLines pat acc lines = Except.ok syms ∧
        ∀ s : String, s ∈ syms ↔
          (s ∈ acc ∨ ∃ l ∈ lines, secondField l = some s ∧ matchesAtStart pat s = true) := by
  induction lines with
  | nil =>
      intro acc _
      exact ⟨acc, rfl, by simp⟩
  | cons l rest ih =>
      intro acc h
      obtain ⟨obj, sym, hparse, hsnd⟩ := parseLine_of_wellFormed l (h l (List.mem_cons_self l rest))
      have hrest : ∀ l' ∈ rest, wellFormed l' = true :=
        fun l' hl' => h l' (List.mem_cons_of_mem l hl')
      by_cases hm : matchesAtStart pat sym = true
      · obtain ⟨syms, hrun, hiff⟩ := ih (setAdd acc sym) hrest
        refine ⟨syms, by simp [processLines, hparse, hm, hrun], fun s => ?_⟩
        rw [hiff s, setAdd_mem]
        constructor
        · rintro ((hs | rfl) | ⟨l', hl', hs', hm'⟩)
          · exact Or.inl hs
          · exact Or.inr ⟨l, List.mem_cons_self l rest, hsnd, hm⟩
          · exact Or.inr ⟨l', List.mem_cons_of_mem l hl', hs', hm'⟩
        · rintro (hs | ⟨l', hl', hs', hm'⟩)
          · exact Or.inl (Or.inl hs)
          · rcases List.mem_cons.mp hl' with rfl | hl'
            · have : sym = s := by rw [hsnd] at hs'; exact Option.some.inj hs'
              exact Or.inl (Or.inr this.symm)
            · exact Or.inr ⟨l', hl', hs', hm'⟩
      · obtain ⟨syms, hrun, hiff⟩ := ih acc hrest
        refine ⟨syms, by simp [processLines, hparse, hm, hrun], fun s => ?_⟩
        rw [hiff s]
        constructor
        · rintro (hs | ⟨l', hl', hs', hm'⟩)
          · exact Or.inl hs
          · exact Or.inr ⟨l', List.mem_cons_of_mem l hl', hs', hm'⟩
        · rintro (hs | ⟨l', hl', hs', hm'⟩)
          · exact Or.inl hs
          · rcases List.mem_cons.mp hl' with rfl | hl'
            · have : sym = s := by rw [hsnd] at hs'; exact Option.some.inj hs'
              exact absurd (this ▸ hm') hm
            · exact Or.inr ⟨l', hl', hs', hm'⟩

/-- C1: for every symbol-listing output consisting of well-formed lines
and every pattern, the preserve-set built by the filtering loop is
exactly the set of second-field symbol names whose start matches the
pattern: every symbol matching at the start is in the set, and no
non-matching symbol is in it. -/
theorem preserve_set_exact (pat : Regex) (lines : List String)
    (h : ∀ l ∈ lines, wellFormed l = true) :
    ∃ syms, processLines pat [] lines = Except.ok syms ∧
      ∀ s : String, s ∈ syms ↔
        ∃ l ∈ lines, secondField l = some s ∧ matchesAtStart pat s = true := by
  obtain ⟨syms, hrun, hiff⟩ := processLines_mem pat lines [] h
  exact ⟨syms, hrun, fun s => by rw [hiff s]; simp⟩

/-- Witness for `preserve_set_exact` at a concrete two-line listing and
the pattern matching names starting with `_foo`. -/
theorem preserve_set_exact_witness :
    (∀ l ∈ (["libz.a[deflate.o]: _foo_init T 500 0",
             "libz.a[inflate.o]: _bar_helper T 20 0"] : List String), wellFormed l = true) ∧
    ∃ syms,
      processLines (stringRe "_foo") []
          ["libz.a[deflate.o]: _foo_init T 500 0",
           "libz.a[inflate.o]: _bar_helper T 20 0"] = Except.ok syms ∧
      ∀ s : String, s ∈ syms ↔
        ∃ l ∈ (["libz.a[deflate.o]: _foo_init T 500 0",
                "libz.a[inflate.o]: _bar_helper T 20 0"] : List String),
          secondField l = some s ∧ matchesAtStart (stringRe "_foo") s = true :=
  ⟨by decide, preserve_set_exact (stringRe "_foo") _ (by decide)⟩

theorem splitLinesList_append (l rest : List Char) (h : '\n' ∉ l) :
    splitLinesList (l ++ '\n' :: rest) = l :: splitLinesList rest := by
  induction l with
  | nil => simp [splitLinesList]
  | cons c cs ih =>
      have hc : ¬ c = '\n' := fun hq => h (hq ▸ List.mem_cons_self c cs)
      have hcs : '\n' ∉ cs := fun hm => h (List.mem_cons_of_mem c hm)
      simp [splitLinesList, hc, ih hcs]

theorem splitLinesList_flattenS (ls : List String) (h : ∀ s ∈ ls, '\n' ∉ s.data) :
    splitLinesList ((ls.map (fun s => s.data ++ ['\n'])).flatten) = ls.map String.data := by
  induction ls with
  | nil => rfl
  | cons l ls ih =>
      rw [List.map_cons, List.flatten_cons, List.append_assoc, List.singleton_append,
        splitLinesList_append _ _ (h l (List.mem_cons_self l ls)),
        ih (fun x hx => h x (List.mem_cons_of_mem l hx)), List.map_cons]

theorem string_mk_data (s : String) : String.mk s.data = s := rfl

/-- C2: the sidecar file is exactly one header line followed by one bare
symbol per line, and reading it back (dropping the header, one entry per
line) reconstructs the preserve-set exactly; the sidecar path is the
source path with its extension replaced by `.symbols`. -/
theorem sidecar_format_round_trip (src : PyPath) (syms : List String)
    (h : ∀ s ∈ syms, '\n' ∉ s.data) :
    sidecarPath src = ⟨src.stem, ".symbols"⟩ ∧
    splitLines (sidecarText syms) = sidecarHeader :: syms ∧
    parseSidecar (sidecarText syms) = syms ∧
    (parseSidecar (sidecarText syms)).toFinset = syms.toFinset := by
  have hall : ∀ s ∈ sidecarHeader :: syms, '\n' ∉ s.data := by
    intro s hs
    rcases List.mem_cons.mp hs with rfl | hs'
    · decide
    · exact h s hs'
  have hsplit : splitLines (sidecarText syms) = sidecarHeader :: syms := by
    unfold splitLines sidecarText
    rw [show (String.mk (((sidecarHeader :: syms).map (fun s => s.data ++ ['\n'])).flatten)).data
          = ((sidecarHeader :: syms).map (fun s => s.data ++ ['\n'])).flatten from rfl]
    rw [splitLinesList_flattenS _ hall, List.map_map]
    rw [show (String.mk ∘ String.data) = id from funext string_mk_data, List.map_id]
  refine ⟨rfl, hsplit, ?_, ?_⟩
  · unfold parseSidecar
    rw [hsplit, List.drop_one, List.tail_cons]
  · unfold parseSidecar
    rw [hsplit, List.drop_one, List.tail_cons]

theorem symbolOf_eq_some (l s : String) (h : symbolOf l = some s) :
    ∃ obj, parseLine l = Except.ok (obj, s) := by
  unfold symbolOf at h
  cases hp : parseLine l with
  | error e => rw [hp] at h; cases h
  | ok p =>
      rw [hp] at h
      obtain ⟨a, b⟩ := p
      have hb : b = s := Option.some.inj h
      subst hb
      exact ⟨a, rfl⟩

theorem processLines_congr (pat : Regex) (lines₁ lines₂ : List String)
    (h : List.Forall₂ (fun a b => (symbolOf a).isSome = true ∧ symbolOf a = symbolOf b)
      lines₁ lines₂) :
    ∀ acc, processLines pat acc lines₁ = processLines pat acc lines₂ := by
  induction h with
  | nil => intro acc; rfl
  | cons hab htail ih =>
      intro acc
      obtain ⟨hsome, heq⟩ := hab
      obtain ⟨s, hs⟩ := Option.isSome_iff_exists.mp hsome
      obtain ⟨o₁, ho₁⟩ := symbolOf_eq_some _ _ hs
      obtain ⟨o₂, ho₂⟩ := symbolOf_eq_some _ _ (heq ▸ hs)
      simp [processLines, ho₁, ho₂, ih]

/-- C9: two listings that are line-for-line identical in their symbol
fields, with all lines parsing, produce the same preserve-set and the
same sidecar text: the object-file name never influences the result. -/
theorem object_name_noninterference (pat : Regex) (lines₁ lines₂ : List String)
    (h : List.Forall₂ (fun a b => (symbolOf a).isSome = true ∧ symbolOf a = symbolOf b)
      lines₁ lines₂) :
    processLines pat [] lines₁ = processLines pat [] lines₂ ∧
    Except.map sidecarText (processLines pat [] lines₁) =
      Except.map sidecarText (processLines pat [] lines₂) := by
  have hrun := processLines_congr pat lines₁ lines₂ h []
  exact ⟨hrun, by rw [hrun]⟩

/-- Witness for `object_name_noninterference`: two one-line listings
differing only in the bracketed object name and the address field. -/
theorem object_name_noninterference_witness :
    List.Forall₂ (fun a b => (symbolOf a).isSome = true ∧ symbolOf a = symbolOf b)
      ["libz.a[first.o]: _foo T 100 0"] ["libz.a[second.o]: _foo T 200 0"] ∧
    (processLines (stringRe "_f") [] ["libz.a[first.o]: _foo T 100 0"] =
       processLines (stringRe "_f") [] ["libz.a[second.o]: _foo T 200 0"] ∧
     Except.map sidecarText (processLines (stringRe "_f") [] ["libz.a[first.o]: _foo T 100 0"]) =
       Except.map sidecarText (processLines (stringRe "_f") [] ["libz.a[second.o]: _foo T 200 0"])) :=
  ⟨List.Forall₂.cons ⟨by decide, by decide⟩ List.Forall₂.nil,
   object_name_noninterference (stringRe "_f") _ _
     (List.Forall₂.cons ⟨by decide, by decide⟩ List.Forall₂.nil)⟩

/-- Witness for `sidecar_format_round_trip` at a concrete path and a
two-symbol preserve-set. -/
theorem sidecar_format_round_trip_witness :
    (∀ s ∈ (["_foo_init", "_bar_helper"] : List String), '\n' ∉ s.data) ∧
    (sidecarPath ⟨"libz", ".a"⟩ = ⟨"libz", ".symbols"⟩ ∧
     splitLines (sidecarText ["_foo_init", "_bar_helper"]) =
       sidecarHeader :: ["_foo_init", "_bar_helper"] ∧
     parseSidecar (sidecarText ["_foo_init", "_bar_helper"]) = ["_foo_init", "_bar_helper"] ∧
     (parseSidecar (sidecarText ["_foo_init", "_bar_helper"])).toFinset =
       (["_foo_init", "_bar_helper"] : List String).toFinset) :=
  ⟨by decide, sidecar_format_round_trip ⟨"libz", ".a"⟩ _ (by decide)⟩

theorem scratchBody_ok_syms (env : Env) (pat : Regex) (out : String) (fs : FS)
    (h : (scratchBody env pat out fs).1 = Except.ok ()) :
    ∃ syms, processLines pat [] (splitLines out) = Except.ok syms ∧
      (scratchBody env pat out fs).2 =
        { fs with sidecar := some (sidecarPath env.source, sidecarText syms),
                  dest := some syms } := by
  cases hp : processLines pat [] (splitLines out) with
  | error e => simp [scratchBody, hp] at h
  | ok syms =>
      refine ⟨syms, rfl, ?_⟩
      cases har : get_exe "ar" env.whichAr with
      | error e => simp [scratchBody, hp, har] at h
      | ok arp =>
          cases ha : env.arOk with
          | false => simp [scratchBody, hp, har, ha] at h
          | true =>
              cases hld : get_exe "ld" env.whichLd with
              | error e => simp [scratchBody, hp, har, ha, hld] at h
              | ok ldp =>
                  cases hl : env.ldOk with
                  | false => simp [scratchBody, hp, har, ha, hld, hl] at h
                  | true =>
                      cases hlt : get_exe "libtool" env.whichLibtool with
                      | error e => simp [scratchBody, hp, har, ha, hld, hl, hlt] at h
                      | ok ltp =>
                          cases hb : env.libtoolOk with
                          | false => simp [scratchBody, hp, har, ha, hld, hl, hlt, hb] at h
                          | true => simp [scratchBody, hp, har, ha, hld, hl, hlt, hb]

theorem scratchBody_frame (env : Env) (pat : Regex) (out : String) (fs : FS) :
    (scratchBody env pat out fs).2.scratchExists = fs.scratchExists ∧
    (scratchBody env pat out fs).2.scratchCreated = fs.scratchCreated := by
  unfold scratchBody
  split
  · exact ⟨rfl, rfl⟩
  · split
    · exact ⟨rfl, rfl⟩
    · split
      · split
        · exact ⟨rfl, rfl⟩
        · split
          · split
            · exact ⟨rfl, rfl⟩
            · split
              · exact ⟨rfl, rfl⟩
              · exact ⟨rfl, rfl⟩
          · exact ⟨rfl, rfl⟩
      · exact ⟨rfl, rfl⟩

theorem scratchBody_fail_dest (env : Env) (pat : Regex) (out : String) (fs : FS)
    (h : (scratchBody env pat out fs).1 ≠ Except.ok ()) :
    (scratchBody env pat out fs).2.dest = fs.dest := by
  revert h
  unfold scratchBody
  split
  · intro _; rfl
  · split
    · intro _; rfl
    · split
      · split
        · intro _; rfl
        · split
          · split
            · intro _; rfl
            · split
              · intro h; exact absurd rfl h
              · intro _; rfl
          · intro _; rfl
      · intro _; rfl

theorem runMain_ok_processLines (env : Env) (fs₀ : FS)
    (h : (runMain env fs₀).1 = Except.ok ()) :
    ∃ pat out syms, env.pattern = some pat ∧ env.nmResult = Except.ok out ∧
      processLines pat [] (splitLines out) = Except.ok syms ∧
      (runMain env fs₀).2 =
        { fs₀ with scratchExists := false, scratchCreated := true,
                   sidecar := some (sidecarPath env.source, sidecarText syms),
                   dest := some syms } := by
  obtain ⟨se, sc, sd, dd⟩ := fs₀
  cases hnm : get_nm env.nmArg env.whichNm with
  | error e => simp [runMain, hnm] at h
  | ok nmp =>
  cases hld : get_exe "ld" env.whichLd with
  | error e => simp [runMain, hnm, hld] at h
  | ok ldp =>
  cases hout : env.nmResult with
  | error u => simp [runMain, hnm, hld, hout] at h
  | ok out =>
  cases hpat : env.pattern with
  | none => simp [runMain, hnm, hld, hout, hpat] at h
  | some pat =>
      have hrm : runMain env ⟨se, sc, sd, dd⟩ =
          ((scratchBody env pat out ⟨true, true, sd, dd⟩).1,
           { (scratchBody env pat out ⟨true, true, sd, dd⟩).2 with scratchExists := false }) := by
        simp [runMain, hnm, hld, hout, hpat]
      rw [hrm] at h
      obtain ⟨syms, hsyms, hstate⟩ := scratchBody_ok_syms env pat out ⟨true, true, sd, dd⟩ h
      refine ⟨pat, out, syms, rfl, rfl, hsyms, ?_⟩
      rw [hrm, hstate]

theorem runMain_fail_dest (env : Env) (fs₀ : FS)
    (h : (runMain env fs₀).1 ≠ Except.ok ()) :
    (runMain env fs₀).2.dest = fs₀.dest := by
  cases hnm : get_nm env.nmArg env.whichNm with
  | error e => simp [runMain, hnm]
  | ok nmp =>
  cases hld : get_exe "ld" env.whichLd with
  | error e => simp [runMain, hnm, hld]
  | ok ldp =>
  cases hout : env.nmResult with
  | error u => simp [runMain, hnm, hld, hout]
  | ok out =>
  cases hpat : env.pattern with
  | none => simp [runMain, hnm, hld, hout, hpat]
  | some pat =>
      have hrm : runMain env fs₀ =
          ((scratchBody env pat out { fs₀ with scratchExists := true, scratchCreated := true }).1,
           { (scratchBody env pat out { fs₀ with scratchExists := true, scratchCreated := true }).2
             with scratchExists := false }) := by
        simp [runMain, hnm, hld, hout, hpat]
      rw [hrm] at h ⊢
      have hfail := scratchBody_fail_dest env pat out
        { fs₀ with scratchExists := true, scratchCreated := true } h
      simpa using hfail

theorem processLines_ok_parse (pat : Regex) :
    ∀ (lines acc syms : List String), processLines pat acc lines = Except.ok syms →
      ∀ l ∈ lines, ∃ p, parseLine l = Except.ok p := by
  intro lines
  induction lines with
  | nil => intro acc syms _ l hl; cases hl
  | cons x rest ih =>
      intro acc syms h l hl
      cases hx : parseLine x with
      | error e => rw [processLines, hx] at h; cases h
      | ok p =>
          rw [processLines, hx] at h
          rcases List.mem_cons.mp hl with rfl | hl'
          · exact ⟨p, hx⟩
          · exact ih _ syms h l hl'

/-- C4: a listing line whose first field does not match the bracketed
object structure raises the unhandled subscript error, and a run whose
symbol listing contains such a line never completes successfully. -/
theorem malformed_line_aborts (env : Env) (fs₀ : FS) (out l : String)
    (hout : env.nmResult = Except.ok out)
    (hmem : l ∈ splitLines out)
    (hbad : parseObjectName (firstField l) = none) :
    parseLine l = Except.error PErr.typeError ∧
    ∃ e, (runMain env fs₀).1 = Except.error e := by
  have hpl : parseLine l = Except.error PErr.typeError := by
    rw [parseLine, hbad]
  refine ⟨hpl, ?_⟩
  by_cases hok : (runMain env fs₀).1 = Except.ok ()
  · exfalso
    obtain ⟨pat, out', syms, _, hout', hsyms, _⟩ := runMain_ok_processLines env fs₀ hok
    have : out' = out := by rw [hout] at hout'; exact (Except.ok.inj hout').symm
    subst this
    obtain ⟨p, hp⟩ := processLines_ok_parse pat (splitLines out') [] syms hsyms l hmem
    rw [hp] at hpl
    cases hpl
  · cases hres : (runMain env fs₀).1 with
    | ok u => cases u; exact absurd hres hok
    | error e => exact ⟨e, rfl⟩

/-- Witness for `malformed_line_aborts`: a listing whose single line has
a first field without the bracketed object name. -/
theorem malformed_line_aborts_witness :
    "libz.a: _deflate T 500 0" ∈ splitLines "libz.a: _deflate T 500 0" ∧
    parseObjectName (firstField "libz.a: _deflate T 500 0") = none ∧
    (parseLine "libz.a: _deflate T 500 0" = Except.error PErr.typeError ∧
     ∃ e, (runMain ⟨⟨"libz", ".a"⟩, none, some (stringRe "_de"), some "/usr/bin/nm",
         some "/usr/bin/ld", some "/usr/bin/ar", some "/usr/bin/libtool",
         Except.ok "libz.a: _deflate T 500 0", true, true, true⟩
       ⟨false, false, none, none⟩).1 = Except.error e) :=
  ⟨by decide, by decide,
   malformed_line_aborts _ _ "libz.a: _deflate T 500 0" "libz.a: _deflate T 500 0"
     rfl (by decide) (by decide)⟩

/-- C5: whatever the outcome of any pipeline step, the scratch directory
does not exist when the run ends; the temporary-directory block removes
it on the success path and on every failure path alike. -/
theorem scratch_always_removed (env : Env) (fs₀ : FS) (h : fs₀.scratchExists = false) :
    ((runMain env fs₀).2).scratchExists = false := by
  unfold runMain
  split
  · exact h
  · split
    · exact h
    · split
      · exact h
      · split
        · exact h
        · rfl

/-- Witness for `scratch_always_removed` on a run that fails at the
relink step. -/
theorem scratch_always_removed_witness :
    ((runMain ⟨⟨"libz", ".a"⟩, none, some (stringRe "_de"), some "/usr/bin/nm",
        some "/usr/bin/ld", some "/usr/bin/ar", some "/usr/bin/libtool",
        Except.ok "libz.a[deflate.o]: _deflate T 500 0", true, false, true⟩
      ⟨false, false, none, none⟩).2).scratchExists = false :=
  scratch_always_removed _ _ rfl

/-- C6: the destination is written only by a successful repack: a run
that ends in success leaves the new archive (built from the preserve
set) at the destination, and a run that fails at any step leaves the
destination exactly as it was. -/
theorem dest_write_on_success_only (env : Env) (fs₀ : FS) :
    ((runMain env fs₀).1 = Except.ok () →
       ∃ pat out syms, env.pattern = some pat ∧ env.nmResult = Except.ok out ∧
         processLines pat [] (splitLines out) = Except.ok syms ∧
         (runMain env fs₀).2.dest = some syms) ∧
    ((runMain env fs₀).1 ≠ Except.ok () → (runMain env fs₀).2.dest = fs₀.dest) := by
  constructor
  · intro hok
    obtain ⟨pat, out, syms, hpat, hout, hsyms, hstate⟩ := runMain_ok_processLines env fs₀ hok
    exact ⟨pat, out, syms, hpat, hout, hsyms, by rw [hstate]⟩
  · exact runMain_fail_dest env fs₀

/-- Witness for `dest_write_on_success_only`: the success half at a run
where every tool is present and succeeds. -/
theorem dest_write_on_success_only_witness :
    ∃ pat out syms,
      (⟨⟨"libz", ".a"⟩, none, some (stringRe "_de"), some "/usr/bin/nm", some "/usr/bin/ld",
        some "/usr/bin/ar", some "/usr/bin/libtool",
        Except.ok "libz.a[deflate.o]: _deflate T 500 0", true, true, true⟩ : Env).pattern = some pat ∧
      (⟨⟨"libz", ".a"⟩, none, some (stringRe "_de"), some "/usr/bin/nm", some "/usr/bin/ld",
        some "/usr/bin/ar", some "/usr/bin/libtool",
        Except.ok "libz.a[deflate.o]: _deflate T 500 0", true, true, true⟩ : Env).nmResult = Except.ok out ∧
      processLines pat [] (splitLines out) = Except.ok syms ∧
      (runMain ⟨⟨"libz", ".a"⟩, none, some (stringRe "_de"), some "/usr/bin/nm", some "/usr/bin/ld",
        some "/usr/bin/ar", some "/usr/bin/libtool",
        Except.ok "libz.a[deflate.o]: _deflate T 500 0", true, true, true⟩
        ⟨false, false, none, some ["_old"]⟩).2.dest = some syms :=
  (dest_write_on_success_only _ _).1 rfl

/-- Counterexample to the claim that all four tool locations are
resolved in step 1 before any pipeline work: with every tool present
except `ar`, the run does fail with the missing-`ar` configuration
error, but only after the symbol listing has been filtered, the sidecar
file written and the scratch directory created (and cleaned up). -/
theorem tools_not_resolved_before_pipeline :
    runMain ⟨⟨"libz", ".a"⟩, none, some (stringRe "_de"), some "/usr/bin/nm",
        some "/usr/bin/ld", none, some "/usr/bin/libtool",
        Except.ok "libz.a[deflate.o]: _deflate T 500 0", true, true, true⟩
      ⟨false, false, none, none⟩ =
    (Except.error (PErr.runtimeError "A valid ar executable is needed"),
     ⟨false, true, some (⟨"libz", ".symbols"⟩, "# Stripped by Cerbero\n_deflate\n"), none⟩) :=
  rfl

/-- C3 (amended): only the symbol lister and the linker are resolved up
front; the archiver is resolved at its point of use, so a run with `ar`
missing raises the configuration error only after the symbol listing
has been filtered, the sidecar written, and the scratch directory
created (the cleanup still runs, and the destination stays untouched). -/
theorem ar_resolved_mid_pipeline (env : Env) (fs₀ : FS) (nmp ldp out : String)
    (pat : Regex) (syms : List String)
    (hnm : get_nm env.nmArg env.whichNm = Except.ok nmp)
    (hld : env.whichLd = some ldp)
    (hout : env.nmResult = Except.ok out)
    (hpat : env.pattern = some pat)
    (hsyms : processLines pat [] (splitLines out) = Except.ok syms)
    (har : env.whichAr = none) :
    runMain env fs₀ =
      (Except.error (PErr.runtimeError "A valid ar executable is needed"),
       { fs₀ with scratchExists := false, scratchCreated := true,
                  sidecar := some (sidecarPath env.source, sidecarText syms) }) := by
  obtain ⟨se, sc, sd, dd⟩ := fs₀
  simp [runMain, scratchBody, get_exe, hnm, hld, hout, hpat, hsyms, har]

/-- Witness for `ar_resolved_mid_pipeline` at a concrete environment
missing only `ar`. -/
theorem ar_resolved_mid_pipeline_witness :
    runMain ⟨⟨"libgstrswebrtc", ".a"⟩, some "/opt/llvm-nm", some (stringRe "_gst"),
        none, some "/usr/bin/ld", none, some "/usr/bin/libtool",
        Except.ok "libgstrswebrtc.a[plugin.o]: _gst_plugin_desc T 500 0", true, true, true⟩
      ⟨false, false, none, some ["_old"]⟩ =
      (Except.error (PErr.runtimeError "A valid ar executable is needed"),
       { (⟨false, false, none, some ["_old"]⟩ : FS) with
          scratchExists := false, scratchCreated := true,
          sidecar := some (sidecarPath ⟨"libgstrswebrtc", ".a"⟩,
            sidecarText ["_gst_plugin_desc"]) }) :=
  ar_resolved_mid_pipeline _ _ "/opt/llvm-nm" "/usr/bin/ld"
    "libgstrswebrtc.a[plugin.o]: _gst_plugin_desc T 500 0" (stringRe "_gst")
    ["_gst_plugin_desc"] rfl rfl rfl rfl rfl rfl

/-- C7: with the symbol lister absent from the search path and no
`--nm` override, the run stops with the configuration error before any
file-system mutation: the returned state is the initial state, so no
scratch directory was created and no sidecar file was written. -/
theorem missing_nm_fails_before_mutation (env : Env) (fs₀ : FS)
    (h₁ : env.nmArg = none) (h₂ : env.whichNm = none) :
    runMain env fs₀ =
      (Except.error (PErr.runtimeError "A valid llvm-nm executable is needed"), fs₀) := by
  simp [runMain, get_nm, h₁, h₂]

/-- Witness for `missing_nm_fails_before_mutation`. -/
theorem missing_nm_fails_before_mutation_witness :
    runMain ⟨⟨"libz", ".a"⟩, none, some (stringRe "_de"), none, some "/usr/bin/ld",
        some "/usr/bin/ar", some "/usr/bin/libtool",
        Except.ok "libz.a[deflate.o]: _deflate T 500 0", true, true, true⟩
      ⟨false, false, none, none⟩ =
      (Except.error (PErr.runtimeError "A valid llvm-nm executable is needed"),
       ⟨false, false, none, none⟩) :=
  missing_nm_fails_before_mutation _ _ rfl rfl

/-- Counterexample to the claim that the null-pattern error is raised on
the first match attempt against a symbol: with `--pattern` omitted and
an empty symbol listing, there is no symbol and no match attempt at all,
yet the run still fails with the `TypeError`. -/
theorem null_pattern_error_without_symbols :
    runMain ⟨⟨"libz", ".a"⟩, none, none, some "/usr/bin/nm", some "/usr/bin/ld",
        some "/usr/bin/ar", some "/usr/bin/libtool", Except.ok "", true, true, true⟩
      ⟨false, false, none, none⟩ =
      (Except.error PErr.typeError, ⟨false, false, none, none⟩) ∧
    splitLines "" = [] :=
  ⟨rfl, rfl⟩

/-- C8 (amended): when `--pattern` is omitted the null pattern makes
`re.compile` raise a `TypeError` right after the symbol listing and
before the loop examines any symbol — whatever the listing contains —
and before any file-system mutation. -/
theorem null_pattern_fails_at_compile (env : Env) (fs₀ : FS) (nmp ldp out : String)
    (hpat : env.pattern = none)
    (hnm : get_nm env.nmArg env.whichNm = Except.ok nmp)
    (hld : env.whichLd = some ldp)
    (hout : env.nmResult = Except.ok out) :
    runMain env fs₀ = (Except.error PErr.typeError, fs₀) := by
  simp [runMain, get_exe, hnm, hld, hout, hpat]

/-- Witness for `null_pattern_fails_at_compile` on a nonempty listing. -/
theorem null_pattern_fails_at_compile_witness :
    runMain ⟨⟨"libz", ".a"⟩, none, none, some "/usr/bin/nm", some "/usr/bin/ld",
        some "/usr/bin/ar", some "/usr/bin/libtool",
        Except.ok "libz.a[deflate.o]: _deflate T 500 0", true, true, true⟩
      ⟨false, false, none, none⟩ =
      (Except.error PErr.typeError, ⟨false, false, none, none⟩) :=
  null_pattern_fails_at_compile _ _ "/usr/bin/nm" "/usr/bin/ld"
    "libz.a[deflate.o]: _deflate T 500 0" rfl rfl rfl rfl

/-- C10: a supplied `--nm` override is returned as-is by the resolver,
whatever the search path would say and whether or not the path is valid;
an invalid override therefore surfaces only when the symbol-lister
invocation itself fails, as a tool failure after resolution, not as a
configuration error. -/
theorem nm_override_unchecked (p : String) (env : Env) (fs₀ : FS) :
    (∀ w : Option String, get_nm (some p) w = Except.ok p) ∧
    (env.nmArg = some p → env.whichLd ≠ none → env.nmResult = Except.error () →
      runMain env fs₀ = (Except.error PErr.calledProcessError, fs₀)) := by
  constructor
  · intro w; rfl
  · intro hnm hld hout
    obtain ⟨ldp, hldp⟩ := Option.ne_none_iff_exists.mp hld
    simp [runMain, get_nm, get_exe, hnm, ← hldp, hout]

/-- Witness for `nm_override_unchecked`: a bogus override path is
accepted by the resolver and the run fails only at the `nm`
invocation. -/
theorem nm_override_unchecked_witness :
    get_nm (some "/no/such/nm") none = Except.ok "/no/such/nm" ∧
    runMain ⟨⟨"libz", ".a"⟩, some "/no/such/nm", some (stringRe "_de"), none,
        some "/usr/bin/ld", some "/usr/bin/ar", some "/usr/bin/libtool",
        Except.error (), true, true, true⟩
      ⟨false, false, none, none⟩ = (Except.error PErr.calledProcessError, ⟨false, false, none, none⟩) :=
  ⟨(nm_override_unchecked "/no/such/nm"
      ⟨⟨"libz", ".a"⟩, some "/no/such/nm", some (stringRe "_de"), none,
        some "/usr/bin/ld", some "/usr/bin/ar", some "/usr/bin/libtool",
        Except.error (), true, true, true⟩ ⟨false, false, none, none⟩).1 none,
   (nm_override_unchecked "/no/such/nm"
      ⟨⟨"libz", ".a"⟩, some "/no/such/nm", some (stringRe "_de"), none,
        some "/usr/bin/ld", some "/usr/bin/ar", some "/usr/bin/libtool",
        Except.error (), true, true, true⟩ ⟨false, false, none, none⟩).2 rfl (by simp) rfl⟩
